import Mathlib

/-!
Shallow embedding of the incremental state tracker of `epdoc/strava`
(`src/packages/strava/src/state/state.ts`, `src/packages/strava/src/state/types.ts`,
`src/packages/strava/src/cmd/pdf/cmd.ts`).

Modelling conventions:

* The persisted state is a JavaScript object; after `load` the code assigns the
  whole parsed record (`this.#state = rawState as State.UserState`), so an
  in-memory state is modelled as an association list of string keys to JSON
  values (`UserState := List (String × Json)`), reflecting arbitrary dicts.
* The backing file, `readJson` and `JSON.stringify` belong to external
  collaborators (`@epdoc/fs`), which the spec places out of scope.  The file is
  therefore modelled at the level of its parsed JSON value: `save` produces the
  JSON value that is serialized and written, and `load` consumes the outcome of
  `exists()`/`readJson()` (absent, a thrown I/O or parse error, or a parsed
  JSON value).  The JSON text codec of the external library round-trips plain
  JSON values, so nothing is lost by this abstraction.
* JavaScript string comparison (`>` on `startDatetimeLocal`) is lexicographic
  code-unit order; for the ASCII ISO-8601 timestamps involved this coincides
  with the lexicographic order on Lean strings.
* `new Date(...)` and `toISOString` (used by `getDateRangeFrom` and the pdf
  command) are modelled by explicit ECMAScript semantics: the Date Time String
  Format grammar (4-digit years; date-only forms are UTC, zone-less date-time
  forms are host-local time), proleptic-Gregorian calendar arithmetic and
  TimeClip.  The host time zone enters as an explicit model input
  `hostOffset` (minutes east of UTC — the host zone's offset at the parsed
  instant; fixed-offset abstraction of zone rules).  Implementation-defined
  fallback parsing of strings outside the format is not modelled, a
  conformant implementation choice under ECMA-262 21.4.3.2; an Invalid Date,
  whose `toISOString` throws a RangeError, is an `Except` error.
* Possible I/O failure during `save` is an input to the model (`writerFails`);
  the `catch`/`throw err` of the source makes the error propagate, modelled as
  `Except.error`.
-/

/-- JSON values, as produced by the external `readJson` of `@epdoc/fs`.
Absent object properties (JS `undefined`) are modelled by absence of the key. -/
inductive Json where
  | null : Json
  | bool (b : Bool) : Json
  | num (n : Int) : Json
  | str (s : String) : Json
  | arr (elems : List Json) : Json
  | obj (fields : List (String × Json)) : Json

/-- JavaScript falsiness of a defined value: `null`, `false`, `0` and `""` are
falsy; objects and arrays are always truthy.  (`undefined` is handled at the
`Option` layer.) -/
def Json.isFalsy : Json → Bool
  | .null => true
  | .bool b => !b
  | .num n => n == 0
  | .str s => s == ""
  | .arr _ => false
  | .obj _ => false

/-- Falsiness of a possibly-undefined value: `undefined` (absence) is falsy. -/
def jsFalsy : Option Json → Bool
  | none => true
  | some v => v.isFalsy

/-- The `_.isDict` check of `@epdoc/type` used by `load`: the parsed value is a
plain object (not an array, not a primitive, not null). -/
def Json.isDict : Json → Bool
  | .obj _ => true
  | _ => false

/-- JS object property read: `record[k]`, `undefined` when the key is absent. -/
def lookupKey (fields : List (String × Json)) (k : String) : Option Json :=
  match fields with
  | [] => none
  | (k', v) :: rest => if k' = k then some v else lookupKey rest k

/-- JS object property write: `record[k] = v`.  An existing key keeps its
position; a new key is appended (JS property insertion order). -/
def setKey (fields : List (String × Json)) (k : String) (v : Json) :
    List (String × Json) :=
  match fields with
  | [] => [(k, v)]
  | (k', v') :: rest =>
      if k' = k then (k, v) :: rest else (k', v') :: setKey rest k v

/-- Lexicographic code-unit comparison of character lists: the semantics of
the JavaScript `<` operator on strings, written as an executable Boolean. -/
def jsStrLtAux : List Char → List Char → Bool
  | _, [] => false
  | [], _ :: _ => true
  | a :: as, b :: bs => if a = b then jsStrLtAux as bs else decide (a < b)

/-- JavaScript string comparison `s < t` (the code's
`activity.startDatetimeLocal > mostRecent.startDatetimeLocal` is
`jsStrLt mostRecent.startDatetimeLocal activity.startDatetimeLocal`). -/
def jsStrLt (s t : String) : Bool := jsStrLtAux s.toList t.toList

/-- The in-memory `#state` of `StateFile` (`State.UserState` after the
unchecked cast in `load`): a JS object keyed by output-channel name. -/
def UserState : Type := List (String × Json)

/-- An activity record, restricted to the one field the tracker reads
(`activity.startDatetimeLocal`, a timezone-local ISO-8601 string). -/
structure Activity where
  startDatetimeLocal : String
deriving DecidableEq

/-- Outcome of `exists()` / `readJson()` on the backing file, as seen by
`load`: the file is absent, reading or parsing it threw, or it parsed to a
JSON value. -/
inductive FileRead where
  | absent : FileRead
  | readFailure : FileRead
  | parsed (j : Json) : FileRead


/-- Epoch-day number of a proleptic-Gregorian civil date (days since
1970-01-01), the standard era-based algorithm; the calendar arithmetic behind
ECMAScript MakeDay.  `Int` division here is floor division (positive
divisors). -/
def daysFromCivil (y m d : Int) : Int :=
  let yy := if m ≤ 2 then y - 1 else y
  let era := yy / 400
  let yoe := yy - era * 400
  let mp := (m + 9) % 12
  let doy := (153 * mp + 2) / 5 + d - 1
  let doe := yoe * 365 + yoe / 4 - yoe / 100 + doy
  era * 146097 + doe - 719468

/-- Civil date (year, month, day) of an epoch-day number; the inverse of
`daysFromCivil`, as used when `toISOString` renders a time value in UTC. -/
def civilFromDays (z : Int) : Int × Int × Int :=
  let zz := z + 719468
  let era := zz / 146097
  let doe := zz - era * 146097
  let yoe := (doe - doe / 1460 + doe / 36524 - doe / 146096) / 365
  let y := yoe + era * 400
  let doy := doe - (365 * yoe + yoe / 4 - yoe / 100)
  let mp := (5 * doy + 2) / 153
  let d := doy - (153 * mp + 2) / 5 + 1
  let m := mp + (if mp < 10 then 3 else -9)
  (if m ≤ 2 then y + 1 else y, m, d)

/-- Number of days in a month of the proleptic-Gregorian calendar; an ISO
date string with a day beyond this is rejected by the ECMAScript parser. -/
def daysInMonth (y m : Int) : Int :=
  if m = 2 then (if (y % 4 = 0 ∧ ¬ y % 100 = 0) ∨ y % 400 = 0 then 29 else 28)
  else if m = 4 ∨ m = 6 ∨ m = 9 ∨ m = 11 then 30
  else 31

/-- Decimal rendering of a natural number left-padded with zeros to the given
width, as `toISOString` prints date fields. -/
def padNat (w n : Nat) : String :=
  String.mk (List.replicate (w - (Nat.repr n).length) '0') ++ Nat.repr n

/-- The date field of `toISOString` with the dashes removed — the net effect
of the code's `split('T')[0]` followed by the global dash-removing `replace`.
Years outside 0-9999 print in the expanded six-digit form; the sign of a
negative year is a dash and is removed by the `replace` as well, while a
plus sign survives. -/
def dateDigitsOfCivil (y m d : Int) : String :=
  (if y < 0 then padNat 6 (-y).toNat
   else if y ≤ 9999 then padNat 4 y.toNat
   else "+" ++ padNat 6 y.toNat)
  ++ padNat 2 m.toNat ++ padNat 2 d.toNat

/-- Date digits of a time value (milliseconds since epoch): the UTC calendar
date printed by `toISOString`, dashes removed. -/
def jsISODateDigits (t : Int) : String :=
  dateDigitsOfCivil (civilFromDays (t / 86400000)).1
    (civilFromDays (t / 86400000)).2.1 (civilFromDays (t / 86400000)).2.2

/-- ASCII decimal digit test, as the date-string grammar uses it. -/
def isDigitChar (c : Char) : Bool := decide (48 ≤ c.toNat ∧ c.toNat ≤ 57)

/-- Numeric value of an ASCII digit. -/
def digitVal (c : Char) : Int := (c.toNat : Int) - 48

/-- Reads exactly `n` decimal digits, accumulating their value; fails when a
non-digit (or the end of input) is hit first. -/
def parseDigitsAux : Nat → Int → List Char → Option (Int × List Char)
  | 0, acc, cs => some (acc, cs)
  | n + 1, acc, c :: cs =>
      if isDigitChar c then parseDigitsAux n (acc * 10 + digitVal c) cs
      else none
  | _ + 1, _, [] => none

/-- Splits a maximal run of leading digits from the input. -/
def takeDigitsAux : List Char → List Char × List Char
  | [] => ([], [])
  | c :: cs =>
      if isDigitChar c then
        ((takeDigitsAux cs).1.cons c, (takeDigitsAux cs).2)
      else ([], c :: cs)

/-- Millisecond value of a fraction-of-second digit run: the first three
digits, right-padded with zeros; further digits are ignored, as ECMAScript
implementations truncate. -/
def fracMs : List Char → Int
  | [] => 0
  | [a] => digitVal a * 100
  | [a, b] => digitVal a * 100 + digitVal b * 10
  | a :: b :: c :: _ => digitVal a * 100 + digitVal b * 10 + digitVal c

/-- Time-zone designator of the Date Time String Format: nothing (host-local
time), `Z` (UTC, case-insensitively), or a `±HH:mm` offset.  Returns the
explicit offset in minutes east of UTC, or `none` for host-local. -/
def parseZone : List Char → Option (Option Int)
  | [] => some none
  | ['Z'] => some (some 0)
  | ['z'] => some (some 0)
  | c :: cs =>
      if c = '+' ∨ c = '-' then
        match parseDigitsAux 2 0 cs with
        | some (hh, ':' :: cs₂) =>
            match parseDigitsAux 2 0 cs₂ with
            | some (mi, []) =>
                if hh ≤ 23 ∧ mi ≤ 59 then
                  some (some ((if c = '+' then 1 else -1) * (hh * 60 + mi)))
                else none
            | _ => none
        | _ => none
      else none

/-- Time part of the Date Time String Format: `HH:mm`, `HH:mm:ss` or
`HH:mm:ss.fff`, followed by an optional zone designator.  Returns hour,
minute, second, milliseconds and the zone. -/
def parseTime (cs : List Char) : Option (Int × Int × Int × Int × Option Int) :=
  match parseDigitsAux 2 0 cs with
  | some (hh, ':' :: cs₁) =>
      match parseDigitsAux 2 0 cs₁ with
      | some (mi, cs₂) =>
          match cs₂ with
          | ':' :: cs₃ =>
              match parseDigitsAux 2 0 cs₃ with
              | some (ss, '.' :: cs₅) =>
                  match takeDigitsAux cs₅ with
                  | ([], _) => none
                  | (ds, cs₆) =>
                      match parseZone cs₆ with
                      | some z => some (hh, mi, ss, fracMs ds, z)
                      | none => none
              | some (ss, cs₄) =>
                  match parseZone cs₄ with
                  | some z => some (hh, mi, ss, 0, z)
                  | none => none
              | none => none
          | _ =>
              match parseZone cs₂ with
              | some z => some (hh, mi, 0, 0, z)
              | none => none
      | none => none
  | _ => none

/-- The components of a parsed date-time string.  `zone` is the explicit
offset in minutes east of UTC, or `none` when the string carries no
designator and is interpreted in host-local time. -/
structure DateParts where
  year : Int
  month : Int
  day : Int
  hour : Int
  minute : Int
  second : Int
  millis : Int
  zone : Option Int
deriving DecidableEq

/-- The Date Time String Format grammar of ECMA-262 (21.4.1.15): `YYYY`,
`YYYY-MM` or `YYYY-MM-DD`, optionally followed by `T` and a time part.
Date-only forms are UTC (zone 0); omitted month and day default to 1. -/
def rawParseDateParts (cs : List Char) : Option DateParts :=
  match parseDigitsAux 4 0 cs with
  | some (y, rest) =>
      match rest with
      | [] => some ⟨y, 1, 1, 0, 0, 0, 0, some 0⟩
      | '-' :: cs₁ =>
          match parseDigitsAux 2 0 cs₁ with
          | some (mo, rest₂) =>
              match rest₂ with
              | [] => some ⟨y, mo, 1, 0, 0, 0, 0, some 0⟩
              | '-' :: cs₂ =>
                  match parseDigitsAux 2 0 cs₂ with
                  | some (dd, rest₃) =>
                      match rest₃ with
                      | [] => some ⟨y, mo, dd, 0, 0, 0, 0, some 0⟩
                      | 'T' :: cs₃ =>
                          match parseTime cs₃ with
                          | some (hh, mi, ss, ms, z) =>
                              some ⟨y, mo, dd, hh, mi, ss, ms, z⟩
                          | none => none
                      | _ => none
                  | none => none
              | _ => none
          | none => none
      | _ => none
  | none => none

/-- Range validation of parsed components, per the format: a string whose
fields are out of range (including a day beyond the month's length) is not a
valid instance of the format and yields an Invalid Date.  Hour 24 is the
end-of-day special case, valid only at exactly 24:00:00.000.  The year range
restates the grammar's four digits. -/
def validDateParts (p : DateParts) : Bool :=
  decide (0 ≤ p.year ∧ p.year ≤ 9999 ∧
    1 ≤ p.month ∧ p.month ≤ 12 ∧
    1 ≤ p.day ∧ p.day ≤ daysInMonth p.year p.month ∧
    0 ≤ p.hour ∧
    (p.hour ≤ 23 ∨ (p.hour = 24 ∧ p.minute = 0 ∧ p.second = 0 ∧ p.millis = 0)) ∧
    0 ≤ p.minute ∧ p.minute ≤ 59 ∧ 0 ≤ p.second ∧ p.second ≤ 59 ∧
    0 ≤ p.millis ∧ p.millis ≤ 999)

/-- Parses a date-time string to validated components — the string analysis
of `new Date(string)`. -/
def parseDateParts (s : String) : Option DateParts :=
  match rawParseDateParts s.toList with
  | some p => if validDateParts p then some p else none
  | none => none

/-- TimeClip of ECMA-262: a time value is valid within ±8.64e15 milliseconds
of the epoch; anything else is an Invalid Date. -/
def timeClip (t : Int) : Option Int :=
  if -8640000000000000 ≤ t ∧ t ≤ 8640000000000000 then some t else none

/-- Time value of validated components: the civil date-time taken at the
explicit zone offset when one is present, and at the host offset otherwise. -/
def timeValueOfParts (hostOffset : Int) (p : DateParts) : Option Int :=
  timeClip (daysFromCivil p.year p.month p.day * 86400000
    + p.hour * 3600000 + p.minute * 60000 + p.second * 1000 + p.millis
    - (match p.zone with | some z => z | none => hostOffset) * 60000)

/-- The string case of `new Date(...)`: parse, then convert to a time value;
`none` is an Invalid Date. -/
def jsDateParse (hostOffset : Int) (s : String) : Option Int :=
  match parseDateParts s with
  | some p => timeValueOfParts hostOffset p
  | none => none

mutual

/-- ToPrimitive string conversion used when a non-primitive reaches
`new Date(...)`: arrays stringify as their elements joined by commas
(`Array.prototype.toString`, where a null element joins as the empty string),
plain objects as `[object Object]`. -/
def jsJoinElem : Json → String
  | .null => ""
  | .bool b => if b then "true" else "false"
  | .num n => toString n
  | .str s => s
  | .obj _ => "[object Object]"
  | .arr es => jsJoinList es

def jsJoinList : List Json → String
  | [] => ""
  | [j] => jsJoinElem j
  | j :: js => jsJoinElem j ++ "," ++ jsJoinList js

end

/-- The time value `new Date(v)` assigns for each shape of stored value: a
string is parsed; a number is a millisecond time value through TimeClip; a
boolean converts to 0 or 1 milliseconds; null to 0; an array stringifies by
joining and is parsed as a string; a plain object stringifies as
`[object Object]`, which no format matches — Invalid Date. -/
def jsDateValueOfJson (hostOffset : Int) : Json → Option Int
  | .str s => jsDateParse hostOffset s
  | .num n => timeClip n
  | .bool b => timeClip (if b then 1 else 0)
  | .null => timeClip 0
  | .arr es => jsDateParse hostOffset (jsJoinList es)
  | .obj _ => none

namespace StateFile

/-- StateFile.load (state.ts, lines 50-70).  The source catches every error
(`try`/`catch` around the whole body) and falls back to the empty state, so the
model is a total function — `load` never raises to the caller.  A parsed value
failing `_.isDict` also yields the empty state. -/
def load (f : FileRead) : UserState :=
  match f with
  | .absent => []
  | .readFailure => []
  | .parsed j =>
      match j with
      | .obj fields => fields
      | _ => []

/-- StateFile.save (state.ts, lines 77-94).  Serializes the whole current
state and writes it; any error on the write path is logged and re-thrown
(`throw err`), so it propagates to the caller.  `writerFails` is the model's
input for an I/O failure; on success the written file parses back to the
serialized state object. -/
def save (writerFails : Bool) (st : UserState) : Except Unit Json :=
  if writerFails then .error () else .ok (.obj st)

/-- StateFile.getLastUpdated (state.ts, lines 102-104):
`this.#state[type]?.lastUpdated`.  Optional chaining on `undefined`/`null`
gives `undefined`; property access on any non-object primitive also yields
`undefined`; only an object can carry a `lastUpdated` property. -/
def getLastUpdated (st : UserState) (ty : String) : Option Json :=
  match lookupKey st ty with
  | some (.obj fields) => lookupKey fields "lastUpdated"
  | _ => none

/-- StateFile.getDateRangeFrom (state.ts, lines 123-134).  Reads the stored
timestamp; a falsy or absent value yields `undefined` (`ok none`).  Otherwise
the value goes through `new Date(...)`, and `toISOString().split('T')[0]`
with the dashes removed becomes the lower bound of the range spec string
`"YYYYMMDD-"` handed to the external `dateRanges` constructor: an open-ended
range from that UTC calendar date, inclusive, to now.  An Invalid Date makes
`toISOString` throw a RangeError, which propagates (`error`).  `hostOffset`
is the host zone's offset in minutes east of UTC, used when the stored
timestamp carries no zone designator. -/
def getDateRangeFrom (hostOffset : Int) (st : UserState) (ty : String) :
    Except Unit (Option String) :=
  match getLastUpdated st ty with
  | none => .ok none
  | some v =>
      if v.isFalsy then .ok none
      else
        match jsDateValueOfJson hostOffset v with
        | some t => .ok (some (jsISODateDigits t ++ "-"))
        | none => .error ()

/-- One iteration of the selection loop of `updateLastUpdated` (state.ts,
lines 163-167): replace the candidate exactly when the next activity's local
start timestamp is strictly greater
(`activity.startDatetimeLocal > mostRecent.startDatetimeLocal`), so the first
activity encountered wins under equality of timestamps. -/
def pickMoreRecent (acc : Option Activity) (a : Activity) : Option Activity :=
  match acc with
  | none => some a
  | some m =>
      if jsStrLt m.startDatetimeLocal a.startDatetimeLocal then some a
      else some m

/-- The whole selection loop of `updateLastUpdated` (state.ts, lines 162-167):
`mostRecent` starts `undefined` and is folded over the activities in list
order. -/
def findMostRecent (acts : List Activity) : Option Activity :=
  acts.foldl pickMoreRecent none

/-- The lazy channel initialization of `updateLastUpdated` (state.ts, lines
171-173): `if (!this.#state[type]) this.#state[type] = {}`. -/
def initChannel (st : UserState) (ty : String) : UserState :=
  if jsFalsy (lookupKey st ty) then setKey st ty (.obj []) else st

/-- The watermark assignment of `updateLastUpdated` (state.ts, line 176):
`this.#state[type]!.lastUpdated = mostRecent.startDatetimeLocal`.  On an
object it rewrites the `lastUpdated` property.  The `none` case covers a
truthy non-object channel slot, which only a hand-corrupted state file can
produce and which `channelAssignable` excludes: a primitive there throws a
strict-mode TypeError, while an array would accept an expando property
(readable by property access but dropped by `JSON.stringify`) — neither
shape is modelled beyond this marker, and no theorem's domain reaches it. -/
def writeWatermark (st : UserState) (ty : String) (v : String) :
    Option UserState :=
  match lookupKey st ty with
  | some (.obj fields) =>
      some (setKey st ty (.obj (setKey fields "lastUpdated" (.str v))))
  | _ => none

/-- Result of a call to `updateLastUpdated`, paired with the in-memory state it
leaves behind. -/
inductive UpdateOutcome where
  | noop : UpdateOutcome
  | saved (file : Json) : UpdateOutcome
  | saveFailed : UpdateOutcome
  | setFailed : UpdateOutcome

/-- StateFile.updateLastUpdated (state.ts, lines 151-184).  Empty input: log
and return, no mutation, no save (`noop`).  Otherwise: initialize
`state[type]` to `{}` when falsy, assign
`state[type].lastUpdated = mostRecent.startDatetimeLocal`, then `await save`.
The pair returned is (in-memory state after the call, outcome); on a save
failure the error propagates (`saveFailed`) but the mutation is already done.
`setFailed` marks the strict-mode TypeError of assigning a property on a
truthy non-object — unreachable from states this module itself produces. -/
def updateLastUpdated (writerFails : Bool) (st : UserState) (ty : String)
    (acts : List Activity) : UserState × UpdateOutcome :=
  match findMostRecent acts with
  | none => (st, .noop)
  | some m =>
      match writeWatermark (initChannel st ty) ty m.startDatetimeLocal with
      | some st₂ =>
          match save writerFails st₂ with
          | .ok f => (st₂, .saved f)
          | .error _ => (st₂, .saveFailed)
      | none => (initChannel st ty, .setFailed)

/-- The channel slot can be assigned through `updateLastUpdated` without a
strict-mode TypeError: it is absent, falsy (then re-initialized to `{}`), or
already an object.  Holds for every state this module itself produces. -/
def channelAssignable (st : UserState) (ty : String) : Bool :=
  match lookupKey st ty with
  | none => true
  | some v => v.isFalsy || v.isDict

end StateFile

/-- Command-line `--date` value of the pdf command (`opts.date`), an external
`DateRanges`; the tracker only asks `hasRanges()` of it, modelled as a field. -/
structure CliDateRanges where
  hasRanges : Bool

/-- Truthiness of `opts.date && opts.date.hasRanges()` (cmd/pdf/cmd.ts,
line 70). -/
def cliDateUsable (optDate : Option CliDateRanges) : Bool :=
  match optDate with
  | some d => d.hasRanges
  | none => false

/-- How the pdf command resolved its fetch range. -/
inductive PdfDateResolution where
  | cliProvided : PdfDateResolution
  | afterInstant (lastUpdated : Json) : PdfDateResolution
  | firstRunExit : PdfDateResolution

/-- The date-range normalization of PdfCmd.init (cmd/pdf/cmd.ts, lines 67-89).
With a usable `--date` the command uses it as-is.  Otherwise it reads
`getLastUpdated('pdf')` from the state; a falsy result aborts with the
first-run error, and a truthy one becomes a single-range `DateRanges` whose
`after` field is `new Date(lastUpdated)` — the exact stored instant, carried
here as the raw stored value (`afterInstant`);
`getDateRangeFrom` is not called on this path. -/
def pdfResolveDateRanges (optDate : Option CliDateRanges) (st : UserState) :
    PdfDateResolution :=
  if cliDateUsable optDate then .cliProvided
  else
    match StateFile.getLastUpdated st "pdf" with
    | none => .firstRunExit
    | some v => if v.isFalsy then .firstRunExit else .afterInstant v

/-- The activity list of the spec's watermark-selection example (testable
property 3): local timestamps 2024-01-05T10:00, 2024-01-07T08:00,
2024-01-06T23:00. -/
def specActivities : List Activity :=
  [⟨"2024-01-05T10:00"⟩, ⟨"2024-01-07T08:00"⟩, ⟨"2024-01-06T23:00"⟩]

/-- The state of the spec's date-range-truncation example (testable
property 5): the kml channel last updated at 2024-12-01T23:30. -/
def kmlLateEveningState : UserState :=
  [("kml", Json.obj [("lastUpdated", Json.str "2024-12-01T23:30")])]

/-- A state with a stored pdf watermark carrying a time of day, for the pdf
command's range construction. -/
def pdfInstantState : UserState :=
  [("pdf", Json.obj [("lastUpdated", Json.str "2024-12-01T23:30:00Z")])]

/-- A two-channel state used to exercise channel independence and the
round trip. -/
def twoChannelState : UserState :=
  [("kml", Json.obj [("lastUpdated", Json.str "2024-03-01T08:00")]),
   ("pdf", Json.obj [("lastUpdated", Json.str "2024-04-02T09:30")])]

/-! Helper lemmas: the Boolean string comparison agrees with the
lexicographic order on `String`, and JS object reads/writes interact as
expected. -/

theorem jsStrLtAux_iff :
    ∀ as bs : List Char, jsStrLtAux as bs = true ↔ List.Lex (· < ·) as bs
  | as, [] => by
      constructor
      · intro h; cases as <;> simp [jsStrLtAux] at h
      · intro h; exact absurd h (List.Lex.not_nil_right _ _)
  | [], b :: bs => by
      constructor
      · intro _; exact List.Lex.nil
      · intro _; rfl
  | a :: as, b :: bs => by
      by_cases h : a = b
      · subst h
        show (if a = a then jsStrLtAux as bs else decide (a < a)) = true ↔ _
        rw [if_pos rfl, jsStrLtAux_iff as bs]
        constructor
        · exact List.Lex.cons
        · intro hl
          cases hl with
          | cons h => exact h
          | rel h => exact absurd h (lt_irrefl a)
      · show (if a = b then jsStrLtAux as bs else decide (a < b)) = true ↔ _
        rw [if_neg h]
        simp only [decide_eq_true_eq]
        constructor
        · exact List.Lex.rel
        · intro hl
          cases hl with
          | cons _ => exact absurd rfl h
          | rel h => exact h

theorem jsStrLt_iff (s t : String) : jsStrLt s t = true ↔ s < t := by
  rw [String.lt_iff_toList_lt]
  exact jsStrLtAux_iff _ _

theorem jsStrLt_eq_false_iff (s t : String) : jsStrLt s t = false ↔ t ≤ s := by
  rw [← Bool.not_eq_true, jsStrLt_iff, not_lt]

theorem lookupKey_setKey_self (fields : List (String × Json)) (k : String)
    (v : Json) : lookupKey (setKey fields k v) k = some v := by
  induction fields with
  | nil => simp [setKey, lookupKey]
  | cons p rest ih =>
      obtain ⟨k', v'⟩ := p
      by_cases h : k' = k
      · subst h; simp [setKey, lookupKey]
      · simp [setKey, lookupKey, h, ih]

theorem lookupKey_setKey_ne (fields : List (String × Json)) (k k' : String)
    (v : Json) (h : k' ≠ k) :
    lookupKey (setKey fields k v) k' = lookupKey fields k' := by
  induction fields with
  | nil => simp [setKey, lookupKey, Ne.symm h]
  | cons p rest ih =>
      obtain ⟨k₀, v₀⟩ := p
      by_cases h₀ : k₀ = k
      · subst h₀
        have : k₀ ≠ k' := fun e => h e.symm
        simp [setKey, lookupKey, this]
      · by_cases h₁ : k₀ = k'
        · subst h₁; simp [setKey, lookupKey, h₀]
        · simp [setKey, lookupKey, h₀, h₁, ih]

theorem foldl_pickMoreRecent_spec (acts : List Activity) (m₀ : Activity) :
    ∃ m l₁ l₂, acts.foldl StateFile.pickMoreRecent (some m₀) = some m ∧
      m₀ :: acts = l₁ ++ m :: l₂ ∧
      (∀ a ∈ l₁, a.startDatetimeLocal < m.startDatetimeLocal) ∧
      (∀ a ∈ l₂, a.startDatetimeLocal ≤ m.startDatetimeLocal) := by
  induction acts generalizing m₀ with
  | nil =>
      exact ⟨m₀, [], [], rfl, rfl, by simp, by simp⟩
  | cons a rest ih =>
      rw [List.foldl_cons]
      cases hcmp : jsStrLt m₀.startDatetimeLocal a.startDatetimeLocal with
      | true =>
          have hm₀a : m₀.startDatetimeLocal < a.startDatetimeLocal :=
            (jsStrLt_iff _ _).mp hcmp
          have hstep : StateFile.pickMoreRecent (some m₀) a = some a := by
            simp [StateFile.pickMoreRecent, hcmp]
          obtain ⟨m, l₁, l₂, hfold, hdec, hl₁, hl₂⟩ := ih a
          have ham : a.startDatetimeLocal ≤ m.startDatetimeLocal := by
            cases l₁ with
            | nil =>
                rw [List.nil_append] at hdec
                injection hdec with h₁ _
                exact le_of_eq (congrArg Activity.startDatetimeLocal h₁)
            | cons b l₁' =>
                rw [List.cons_append] at hdec
                injection hdec with h₁ _
                exact le_of_lt (h₁ ▸ hl₁ b (List.mem_cons_self b l₁'))
          refine ⟨m, m₀ :: l₁, l₂, ?_, ?_, ?_, hl₂⟩
          · rw [hstep]; exact hfold
          · rw [List.cons_append, ← hdec]
          · intro x hx
            rcases List.mem_cons.mp hx with h | h
            · exact h ▸ lt_of_lt_of_le hm₀a ham
            · exact hl₁ x h
      | false =>
          have ham₀ : a.startDatetimeLocal ≤ m₀.startDatetimeLocal :=
            (jsStrLt_eq_false_iff _ _).mp hcmp
          have hstep : StateFile.pickMoreRecent (some m₀) a = some m₀ := by
            simp [StateFile.pickMoreRecent, hcmp]
          obtain ⟨m, l₁, l₂, hfold, hdec, hl₁, hl₂⟩ := ih m₀
          cases l₁ with
          | nil =>
              rw [List.nil_append] at hdec
              injection hdec with h₁ h₂
              refine ⟨m, [], a :: l₂, ?_, ?_, by simp, ?_⟩
              · rw [hstep]; exact hfold
              · rw [List.nil_append, ← h₁, ← h₂]
              · intro x hx
                rcases List.mem_cons.mp hx with h | h
                · exact h ▸ (h₁ ▸ ham₀)
                · exact hl₂ x h
          | cons b l₁' =>
              rw [List.cons_append] at hdec
              injection hdec with h₁ h₂
              have hm₀m : m₀.startDatetimeLocal < m.startDatetimeLocal :=
                h₁ ▸ hl₁ b (List.mem_cons_self b l₁')
              refine ⟨m, m₀ :: a :: l₁', l₂, ?_, ?_, ?_, hl₂⟩
              · rw [hstep]; exact hfold
              · rw [List.cons_append, List.cons_append, ← h₂]
              · intro x hx
                rcases List.mem_cons.mp hx with h | h
                · exact h ▸ hm₀m
                · rcases List.mem_cons.mp h with h' | h'
                  · exact h' ▸ lt_of_le_of_lt ham₀ hm₀m
                  · exact hl₁ x (List.mem_cons_of_mem b h')

theorem findMostRecent_spec (acts : List Activity) (hne : acts ≠ []) :
    ∃ m l₁ l₂, StateFile.findMostRecent acts = some m ∧ acts = l₁ ++ m :: l₂ ∧
      (∀ a ∈ l₁, a.startDatetimeLocal < m.startDatetimeLocal) ∧
      (∀ a ∈ l₂, a.startDatetimeLocal ≤ m.startDatetimeLocal) := by
  cases acts with
  | nil => exact absurd rfl hne
  | cons a rest =>
      have hhead : StateFile.findMostRecent (a :: rest)
          = rest.foldl StateFile.pickMoreRecent (some a) := by
        simp [StateFile.findMostRecent, StateFile.pickMoreRecent]
      obtain ⟨m, l₁, l₂, hfold, hdec, hl₁, hl₂⟩ := foldl_pickMoreRecent_spec rest a
      exact ⟨m, l₁, l₂, hhead ▸ hfold, hdec, hl₁, hl₂⟩

theorem max_of_decomp (acts l₁ l₂ : List Activity) (m : Activity)
    (hdec : acts = l₁ ++ m :: l₂)
    (hl₁ : ∀ a ∈ l₁, a.startDatetimeLocal < m.startDatetimeLocal)
    (hl₂ : ∀ a ∈ l₂, a.startDatetimeLocal ≤ m.startDatetimeLocal) :
    ∀ a ∈ acts, a.startDatetimeLocal ≤ m.startDatetimeLocal := by
  intro x hx
  rw [hdec] at hx
  rcases List.mem_append.mp hx with h | h
  · exact le_of_lt (hl₁ x h)
  · rcases List.mem_cons.mp h with h' | h'
    · exact le_of_eq (congrArg Activity.startDatetimeLocal h')
    · exact hl₂ x h'

theorem initChannel_obj (st : UserState) (ty : String)
    (hok : StateFile.channelAssignable st ty = true) :
    ∃ fields, lookupKey (StateFile.initChannel st ty) ty = some (.obj fields) := by
  unfold StateFile.channelAssignable at hok
  unfold StateFile.initChannel
  cases hlook : lookupKey st ty with
  | none =>
      exact ⟨[], by simp [jsFalsy, lookupKey_setKey_self]⟩
  | some v =>
      rw [hlook] at hok
      have hok' : (v.isFalsy || v.isDict) = true := hok
      cases hf : v.isFalsy with
      | true => exact ⟨[], by simp [jsFalsy, hf, lookupKey_setKey_self]⟩
      | false =>
          rw [hf] at hok'
          simp only [Bool.false_or] at hok'
          cases v with
          | obj fields => exact ⟨fields, by simp [jsFalsy, Json.isFalsy, hlook]⟩
          | null => exact absurd hok' (by simp [Json.isDict])
          | bool b => exact absurd hok' (by simp [Json.isDict])
          | num n => exact absurd hok' (by simp [Json.isDict])
          | str s => exact absurd hok' (by simp [Json.isDict])
          | arr es => exact absurd hok' (by simp [Json.isDict])

theorem initChannel_lookup_ne (st : UserState) (ty ty' : String) (h : ty' ≠ ty) :
    lookupKey (StateFile.initChannel st ty) ty' = lookupKey st ty' := by
  unfold StateFile.initChannel
  cases jsFalsy (lookupKey st ty) with
  | true => simp [lookupKey_setKey_ne st ty ty' _ h]
  | false => simp

theorem writeWatermark_of_obj (st : UserState) (ty : String) (v : String)
    (fields : List (String × Json))
    (hobj : lookupKey st ty = some (.obj fields)) :
    StateFile.writeWatermark st ty v
      = some (setKey st ty (.obj (setKey fields "lastUpdated" (.str v)))) := by
  unfold StateFile.writeWatermark
  rw [hobj]

theorem updateLastUpdated_run (wFails : Bool) (st : UserState) (ty : String)
    (acts : List Activity) (m : Activity)
    (hfm : StateFile.findMostRecent acts = some m)
    (hok : StateFile.channelAssignable st ty = true) :
    StateFile.getLastUpdated (StateFile.updateLastUpdated wFails st ty acts).1 ty
      = some (.str m.startDatetimeLocal) ∧
    (StateFile.updateLastUpdated wFails st ty acts).2
      = (if wFails then .saveFailed
         else .saved (.obj (StateFile.updateLastUpdated wFails st ty acts).1)) := by
  obtain ⟨fields, hobj⟩ := initChannel_obj st ty hok
  have hred : StateFile.updateLastUpdated wFails st ty acts
      = (setKey (StateFile.initChannel st ty) ty
          (.obj (setKey fields "lastUpdated" (.str m.startDatetimeLocal))),
         if wFails then .saveFailed
         else .saved (.obj (setKey (StateFile.initChannel st ty) ty
           (.obj (setKey fields "lastUpdated" (.str m.startDatetimeLocal)))))) := by
    simp only [StateFile.updateLastUpdated, hfm,
      writeWatermark_of_obj _ _ _ _ hobj, StateFile.save]
    cases wFails <;> simp
  constructor
  · rw [hred]
    simp only [StateFile.getLastUpdated, lookupKey_setKey_self]
  · rw [hred]

theorem writeWatermark_lookup_ne (st st₂ : UserState) (ty ty' : String)
    (v : String) (h : ty' ≠ ty)
    (hw : StateFile.writeWatermark st ty v = some st₂) :
    lookupKey st₂ ty' = lookupKey st ty' := by
  unfold StateFile.writeWatermark at hw
  split at hw
  · injection hw with hw'
    rw [← hw', lookupKey_setKey_ne _ _ _ _ h]
  · exact absurd hw (by simp)

theorem updateLastUpdated_lookup_ne (wFails : Bool) (st : UserState)
    (ty ty' : String) (acts : List Activity) (h : ty' ≠ ty) :
    lookupKey (StateFile.updateLastUpdated wFails st ty acts).1 ty'
      = lookupKey st ty' := by
  cases hfm : StateFile.findMostRecent acts with
  | none => simp [StateFile.updateLastUpdated, hfm]
  | some m =>
      cases hw : StateFile.writeWatermark (StateFile.initChannel st ty) ty
          m.startDatetimeLocal with
      | none =>
          simp only [StateFile.updateLastUpdated, hfm, hw]
          exact initChannel_lookup_ne st ty ty' h
      | some st₂ =>
          have h₂ := writeWatermark_lookup_ne (StateFile.initChannel st ty) st₂
            ty ty' m.startDatetimeLocal h hw
          have h₁ := initChannel_lookup_ne st ty ty' h
          cases wFails <;>
            simp only [StateFile.updateLastUpdated, hfm, hw, StateFile.save] <;>
            simp <;> rw [h₂, h₁]

theorem getLastUpdated_ext (st st' : UserState) (ty : String)
    (h : lookupKey st ty = lookupKey st' ty) :
    StateFile.getLastUpdated st ty = StateFile.getLastUpdated st' ty := by
  unfold StateFile.getLastUpdated
  rw [h]

set_option maxHeartbeats 2000000 in
theorem yoe_recover (yoe doy : Int) (h1 : 0 ≤ yoe) (h2 : yoe ≤ 399)
    (h3 : 0 ≤ doy)
    (h4 : doy ≤ 364 ∨ (doy = 365 ∧
      (((yoe + 1) % 4 = 0 ∧ (yoe + 1) % 100 ≠ 0) ∨ (yoe + 1) % 400 = 0))) :
    ((yoe * 365 + yoe / 4 - yoe / 100 + doy) -
      (yoe * 365 + yoe / 4 - yoe / 100 + doy) / 1460 +
      (yoe * 365 + yoe / 4 - yoe / 100 + doy) / 36524 -
      (yoe * 365 + yoe / 4 - yoe / 100 + doy) / 146096) / 365 = yoe := by
  interval_cases yoe <;> omega

set_option maxHeartbeats 2000000 in
theorem civil_roundtrip (y m d : Int) (hm1 : 1 ≤ m) (hm2 : m ≤ 12)
    (hd1 : 1 ≤ d) (hd2 : d ≤ daysInMonth y m) :
    civilFromDays (daysFromCivil y m d) = (y, m, d) := by
  unfold daysInMonth at hd2
  obtain ⟨era, yoe, doy, h1, h2, h3, h4, hlink, hdoy, htot⟩ :
      ∃ era yoe doy : Int, 0 ≤ yoe ∧ yoe ≤ 399 ∧ 0 ≤ doy ∧
        (doy ≤ 364 ∨ (doy = 365 ∧
          (((yoe + 1) % 4 = 0 ∧ (yoe + 1) % 100 ≠ 0) ∨ (yoe + 1) % 400 = 0))) ∧
        (if m ≤ 2 then y - 1 else y) = era * 400 + yoe ∧
        doy = (153 * ((m + 9) % 12) + 2) / 5 + d - 1 ∧
        daysFromCivil y m d
          = era * 146097 + (yoe * 365 + yoe / 4 - yoe / 100 + doy) - 719468 := by
    refine ⟨(if m ≤ 2 then y - 1 else y) / 400,
      (if m ≤ 2 then y - 1 else y) - ((if m ≤ 2 then y - 1 else y) / 400) * 400,
      (153 * ((m + 9) % 12) + 2) / 5 + d - 1, ?_, ?_, ?_, ?_, ?_, rfl, ?_⟩
    · split_ifs <;> omega
    · split_ifs <;> omega
    · omega
    · split_ifs at hd2 ⊢ <;> omega
    · split_ifs <;> omega
    · simp only [daysFromCivil]
  have key := yoe_recover yoe doy h1 h2 h3 h4
  have hD1 : 0 ≤ yoe * 365 + yoe / 4 - yoe / 100 + doy := by omega
  have hD2 : yoe * 365 + yoe / 4 - yoe / 100 + doy ≤ 146096 := by omega
  interval_cases m
  all_goals (
    rw [htot]
    simp only [civilFromDays, Prod.mk.injEq]
    rw [Int.sub_add_cancel]
    rw [show (era * 146097 + (yoe * 365 + yoe / 4 - yoe / 100 + doy)) / 146097
        = era by omega]
    rw [show era * 146097 + (yoe * 365 + yoe / 4 - yoe / 100 + doy) - era * 146097
        = yoe * 365 + yoe / 4 - yoe / 100 + doy from by ring]
    rw [key]
    rw [show yoe * 365 + yoe / 4 - yoe / 100 + doy - (365 * yoe + yoe / 4 - yoe / 100)
        = doy from by ring]
    split_ifs at * <;> omega)

theorem parseDateParts_valid (s : String) (p : DateParts)
    (h : parseDateParts s = some p) : validDateParts p = true := by
  unfold parseDateParts at h
  cases hr : rawParseDateParts s.toList with
  | none => rw [hr] at h; exact absurd h (by simp)
  | some q =>
      rw [hr] at h
      have h₂ : (if validDateParts q then some q else none) = some p := h
      by_cases hv : validDateParts q = true
      · rw [if_pos hv] at h₂
        injection h₂ with h₃
        rw [← h₃]
        exact hv
      · rw [if_neg hv] at h₂
        exact absurd h₂ (by simp)

theorem jsISODateDigits_of_civil (y m d tod : Int) (hm1 : 1 ≤ m) (hm2 : m ≤ 12)
    (hd1 : 1 ≤ d) (hd2 : d ≤ daysInMonth y m) (ht1 : 0 ≤ tod)
    (ht2 : tod < 86400000) :
    jsISODateDigits (daysFromCivil y m d * 86400000 + tod)
      = dateDigitsOfCivil y m d := by
  unfold jsISODateDigits
  rw [show (daysFromCivil y m d * 86400000 + tod) / 86400000
      = daysFromCivil y m d by omega]
  rw [civil_roundtrip y m d hm1 hm2 hd1 hd2]

/-! Claim theorems. -/

/-- C1: for every non-empty activity list (on a state whose channel slot is
assignable, as every state this module itself produces is),
`updateLastUpdated` sets the channel's `lastUpdated` to the maximum
`startDatetimeLocal` among the supplied activities — under equality of
timestamps the first activity encountered in list order is taken (every
activity strictly before the chosen one is strictly smaller) — and then
persists the whole updated state via `save`. -/
theorem updateLastUpdated_sets_watermark_to_max (st : UserState) (ty : String)
    (acts : List Activity) (hne : acts ≠ [])
    (hok : StateFile.channelAssignable st ty = true) :
    ∃ m l₁ l₂, acts = l₁ ++ m :: l₂ ∧
      (∀ a ∈ l₁, a.startDatetimeLocal < m.startDatetimeLocal) ∧
      (∀ a ∈ acts, a.startDatetimeLocal ≤ m.startDatetimeLocal) ∧
      StateFile.getLastUpdated
          (StateFile.updateLastUpdated false st ty acts).1 ty
        = some (.str m.startDatetimeLocal) ∧
      (StateFile.updateLastUpdated false st ty acts).2
        = .saved (.obj (StateFile.updateLastUpdated false st ty acts).1) := by
  obtain ⟨m, l₁, l₂, hfm, hdec, hl₁, hl₂⟩ := findMostRecent_spec acts hne
  obtain ⟨hget, hout⟩ := updateLastUpdated_run false st ty acts m hfm hok
  exact ⟨m, l₁, l₂, hdec, hl₁, max_of_decomp acts l₁ l₂ m hdec hl₁ hl₂, hget,
    by simpa using hout⟩

/-- Witness for C1 at the spec's watermark-selection example: timestamps
[2024-01-05T10:00, 2024-01-07T08:00, 2024-01-06T23:00] on channel "kml" of
the empty state give `lastUpdated = 2024-01-07T08:00`. -/
theorem updateLastUpdated_sets_watermark_to_max_witness :
    specActivities ≠ [] ∧ StateFile.channelAssignable [] "kml" = true ∧
    StateFile.getLastUpdated
        (StateFile.updateLastUpdated false [] "kml" specActivities).1 "kml"
      = some (.str "2024-01-07T08:00") ∧
    (∃ m l₁ l₂, specActivities = l₁ ++ m :: l₂ ∧
      (∀ a ∈ l₁, a.startDatetimeLocal < m.startDatetimeLocal) ∧
      (∀ a ∈ specActivities,
        a.startDatetimeLocal ≤ m.startDatetimeLocal) ∧
      StateFile.getLastUpdated
          (StateFile.updateLastUpdated false [] "kml" specActivities).1 "kml"
        = some (.str m.startDatetimeLocal) ∧
      (StateFile.updateLastUpdated false [] "kml" specActivities).2
        = .saved
            (.obj (StateFile.updateLastUpdated false [] "kml"
              specActivities).1)) :=
  ⟨by decide, by decide, rfl,
   updateLastUpdated_sets_watermark_to_max [] "kml" specActivities
     (by decide) (by decide)⟩

/-- C2 (counterexample): the claim that the range lower bound is the
calendar date of the stored timestamp fails on a host west of UTC.  With
`kml.lastUpdated = 2024-12-01T23:30` — a zone-less local timestamp, the
spec's own example — on a host at UTC-05:00 (offset -300 minutes east),
`new Date` reads the timestamp as host-local time and `toISOString` renders
it in UTC, so the lower bound comes out as the next calendar day,
`20241202-`, not `20241201-`. -/
theorem getDateRangeFrom_west_host_counterexample :
    StateFile.getDateRangeFrom (-300) kmlLateEveningState "kml"
      = .ok (some "20241202-") ∧
    StateFile.getDateRangeFrom (-300) kmlLateEveningState "kml"
      ≠ .ok (some "20241201-") := by
  constructor
  · rfl
  · intro h
    have h₂ : (Except.ok (some "20241202-") : Except Unit (Option String))
        = .ok (some "20241201-") := h
    injection h₂ with h₃
    injection h₃ with h₄
    exact absurd h₄ (by decide)

/-- C2 (amended): `getDateRangeFrom` returns none when no timestamp is
stored; otherwise the lower bound of the open-ended range is the UTC
calendar date — not the time of day — of the instant obtained by JavaScript
date parsing of the stored timestamp (zone-less timestamps being read in
host-local time), and a stored timestamp that does not parse raises a
RangeError instead of returning a range.  When the stored timestamp's
effective zone is UTC — an explicit zero offset, or no designator on a UTC
host — and its hour field is a real time of day (at most 23), that lower
bound is exactly the stored timestamp's own calendar date, as in the spec's
example. -/
theorem getDateRangeFrom_date_of_parsed_instant (off : Int) (st : UserState)
    (ty : String) :
    (StateFile.getLastUpdated st ty = none →
      StateFile.getDateRangeFrom off st ty = .ok none) ∧
    (∀ s : String, StateFile.getLastUpdated st ty = some (.str s) → s ≠ "" →
      (∀ t : Int, jsDateParse off s = some t →
        StateFile.getDateRangeFrom off st ty
          = .ok (some (jsISODateDigits t ++ "-"))) ∧
      (jsDateParse off s = none →
        StateFile.getDateRangeFrom off st ty = .error ())) ∧
    (∀ s : String, ∀ p : DateParts,
      StateFile.getLastUpdated st ty = some (.str s) → s ≠ "" →
      parseDateParts s = some p →
      (p.zone = some 0 ∨ (p.zone = none ∧ off = 0)) → p.hour ≤ 23 →
      StateFile.getDateRangeFrom off st ty
        = .ok (some (dateDigitsOfCivil p.year p.month p.day ++ "-"))) := by
  refine ⟨?_, ?_, ?_⟩
  · intro h
    simp [StateFile.getDateRangeFrom, h]
  · intro s hst hs
    constructor
    · intro t ht
      simp [StateFile.getDateRangeFrom, hst, Json.isFalsy, hs,
        jsDateValueOfJson, ht]
    · intro ht
      simp [StateFile.getDateRangeFrom, hst, Json.isFalsy, hs,
        jsDateValueOfJson, ht]
  · intro s p hst hs hp hz hh
    have hv := of_decide_eq_true (parseDateParts_valid s p hp)
    obtain ⟨hy1, hy2, hm1, hm2, hd1, hd2, hh0, _,
      hmi0, hmi, hs0, hss, hms0, hms⟩ := hv
    have hdim : daysInMonth p.year p.month ≤ 31 := by
      unfold daysInMonth
      split_ifs <;> omega
    have hdays : -1000000 ≤ daysFromCivil p.year p.month p.day ∧
        daysFromCivil p.year p.month p.day ≤ 4000000 := by
      simp only [daysFromCivil]
      split_ifs <;> omega
    have hzeq : (match p.zone with | some z => z | none => off) = 0 := by
      rcases hz with hz | ⟨hz, hoff⟩
      · rw [hz]
      · rw [hz, hoff]
    have htv : timeValueOfParts off p
        = some (daysFromCivil p.year p.month p.day * 86400000
            + (p.hour * 3600000 + p.minute * 60000 + p.second * 1000
              + p.millis)) := by
      unfold timeValueOfParts timeClip
      rw [hzeq]
      rw [if_pos (by omega)]
      exact congrArg some (by ring)
    have hdig := jsISODateDigits_of_civil p.year p.month p.day
      (p.hour * 3600000 + p.minute * 60000 + p.second * 1000 + p.millis)
      hm1 hm2 hd1 hd2 (by omega) (by omega)
    simp [StateFile.getDateRangeFrom, hst, Json.isFalsy, hs,
      jsDateValueOfJson, jsDateParse, hp, htv, hdig]

/-- Witness for the amended C2 at the spec's example on a UTC host: with
`kml.lastUpdated = 2024-12-01T23:30` and host offset 0, the lower bound is
the stored calendar date, `20241201-`. -/
theorem getDateRangeFrom_date_of_parsed_instant_witness :
    StateFile.getLastUpdated kmlLateEveningState "kml"
        = some (.str "2024-12-01T23:30") ∧
    ("2024-12-01T23:30" : String) ≠ "" ∧
    parseDateParts "2024-12-01T23:30"
        = some ⟨2024, 12, 1, 23, 30, 0, 0, none⟩ ∧
    StateFile.getDateRangeFrom 0 kmlLateEveningState "kml"
      = .ok (some "20241201-") :=
  ⟨rfl, by decide, rfl,
   (getDateRangeFrom_date_of_parsed_instant 0 kmlLateEveningState "kml").2.2
     "2024-12-01T23:30" ⟨2024, 12, 1, 23, 30, 0, 0, none⟩ rfl (by decide) rfl
     (Or.inr ⟨rfl, rfl⟩) (by decide)⟩

/-- C3: `load` never raises (it is a total function of the file-read outcome)
and every degraded backing-file condition — file absent, content unparsable
(a thrown I/O or parse error), or parsed content not a keyed record — yields
the empty state, on which `getLastUpdated` is `none` for every channel. -/
theorem load_degrades_to_empty_state (f : FileRead)
    (h : f = .absent ∨ f = .readFailure ∨
      ∃ j, f = .parsed j ∧ j.isDict = false) :
    StateFile.load f = [] ∧
    ∀ ty : String, StateFile.getLastUpdated (StateFile.load f) ty = none := by
  have hload : StateFile.load f = [] := by
    rcases h with h | h | ⟨j, hj, hdict⟩
    · rw [h]; rfl
    · rw [h]; rfl
    · rw [hj]
      cases j with
      | obj fields => exact absurd hdict (by simp [Json.isDict])
      | null => rfl
      | bool b => rfl
      | num n => rfl
      | str s => rfl
      | arr es => rfl
  exact ⟨hload, fun ty => by rw [hload]; rfl⟩

/-- Witness for C3 at the spec's corrupt-file example: a backing file holding
a JSON array (not an object) loads as the empty state. -/
theorem load_corrupt_array_witness :
    (FileRead.parsed (.arr []) = .absent ∨
     FileRead.parsed (.arr []) = .readFailure ∨
     ∃ j, FileRead.parsed (.arr []) = .parsed j ∧ j.isDict = false) ∧
    (StateFile.load (.parsed (.arr [])) = [] ∧
     ∀ ty : String,
       StateFile.getLastUpdated (StateFile.load (.parsed (.arr []))) ty
         = none) :=
  ⟨Or.inr (Or.inr ⟨.arr [], rfl, rfl⟩),
   load_degrades_to_empty_state (.parsed (.arr []))
     (Or.inr (Or.inr ⟨.arr [], rfl, rfl⟩))⟩

/-- C4: an I/O failure during `save` is re-raised to the caller (the model's
`Except.error`), and a failing save inside `updateLastUpdated` on a non-empty
activity list likewise propagates (`saveFailed`) instead of being swallowed. -/
theorem save_failure_propagates (st : UserState) (ty : String)
    (acts : List Activity) (hne : acts ≠ [])
    (hok : StateFile.channelAssignable st ty = true) :
    StateFile.save true st = .error () ∧
    (StateFile.updateLastUpdated true st ty acts).2 = .saveFailed := by
  constructor
  · rfl
  · obtain ⟨m, l₁, l₂, hfm, _, _, _⟩ := findMostRecent_spec acts hne
    have h := (updateLastUpdated_run true st ty acts m hfm hok).2
    simpa using h

/-- Witness for C4 at a concrete failing save on channel "pdf". -/
theorem save_failure_propagates_witness :
    specActivities ≠ [] ∧ StateFile.channelAssignable [] "pdf" = true ∧
    (StateFile.save true [] = .error () ∧
     (StateFile.updateLastUpdated true [] "pdf" specActivities).2
       = .saveFailed) :=
  ⟨by decide, by decide,
   save_failure_propagates [] "pdf" specActivities (by decide) (by decide)⟩

/-- C5: `updateLastUpdated` with the empty activity collection does nothing,
for every channel and every state: the in-memory state is returned unchanged
and `save` is not invoked (outcome `noop`, so no file write occurs either). -/
theorem updateLastUpdated_empty_input_noop (wFails : Bool) (st : UserState)
    (ty : String) :
    StateFile.updateLastUpdated wFails st ty [] = (st, .noop) := rfl

/-- C6: `save` followed by a fresh `load` of the written file reproduces the
identical `lastUpdated` value for every channel (in particular "kml" and
"pdf"). -/
theorem save_then_load_round_trip (st : UserState) (f : Json)
    (h : StateFile.save false st = .ok f) :
    ∀ ty : String,
      StateFile.getLastUpdated (StateFile.load (.parsed f)) ty
        = StateFile.getLastUpdated st ty := by
  have hf : f = .obj st := by
    have hsave : StateFile.save false st = .ok (.obj st) := rfl
    rw [hsave] at h
    injection h with h'
    exact h'.symm
  intro ty
  rw [hf]
  rfl

/-- Witness for C6 on a state with both channels set. -/
theorem save_then_load_round_trip_witness :
    StateFile.save false twoChannelState = .ok (.obj twoChannelState) ∧
    ∀ ty : String,
      StateFile.getLastUpdated
          (StateFile.load (.parsed (.obj twoChannelState))) ty
        = StateFile.getLastUpdated twoChannelState ty :=
  ⟨rfl, save_then_load_round_trip twoChannelState (.obj twoChannelState) rfl⟩

/-- C7: for every state and non-empty activity list, an update on channel
"pdf" leaves the stored timestamp of channel "kml" unchanged as observed via
`getLastUpdated`, and symmetrically — whether or not the save succeeds. -/
theorem updateLastUpdated_channel_independence (wFails : Bool)
    (st : UserState) (acts : List Activity) (_hne : acts ≠ []) :
    StateFile.getLastUpdated
        (StateFile.updateLastUpdated wFails st "pdf" acts).1 "kml"
      = StateFile.getLastUpdated st "kml" ∧
    StateFile.getLastUpdated
        (StateFile.updateLastUpdated wFails st "kml" acts).1 "pdf"
      = StateFile.getLastUpdated st "pdf" := by
  constructor
  · exact getLastUpdated_ext _ st "kml"
      (updateLastUpdated_lookup_ne wFails st "pdf" "kml" acts (by decide))
  · exact getLastUpdated_ext _ st "pdf"
      (updateLastUpdated_lookup_ne wFails st "kml" "pdf" acts (by decide))

/-- Witness for C7 on a state with both channels set. -/
theorem updateLastUpdated_channel_independence_witness :
    specActivities ≠ [] ∧
    (StateFile.getLastUpdated
        (StateFile.updateLastUpdated false twoChannelState "pdf"
          specActivities).1 "kml"
      = StateFile.getLastUpdated twoChannelState "kml" ∧
     StateFile.getLastUpdated
        (StateFile.updateLastUpdated false twoChannelState "kml"
          specActivities).1 "pdf"
      = StateFile.getLastUpdated twoChannelState "pdf") :=
  ⟨by decide,
   updateLastUpdated_channel_independence false twoChannelState specActivities
     (by decide)⟩

/-- C8: when the pdf command runs without a usable `--date` but a stored
"pdf" watermark exists, the fetch range it builds starts at the exact stored
instant: `afterInstant` carries the stored value itself, which becomes
`new DateRanges` with `after = new Date(lastUpdated)` — no calendar-date
truncation, and no call to `getDateRangeFrom` anywhere on this path. -/
theorem pdf_cmd_range_uses_exact_instant (optDate : Option CliDateRanges)
    (st : UserState) (s : String) (hcli : cliDateUsable optDate = false)
    (hst : StateFile.getLastUpdated st "pdf" = some (.str s)) (hs : s ≠ "") :
    pdfResolveDateRanges optDate st = .afterInstant (.str s) := by
  simp [pdfResolveDateRanges, hcli, hst, Json.isFalsy, hs]

/-- Witness for C8: with `pdf.lastUpdated = 2024-12-01T23:30:00Z` and no
`--date`, the command's lower bound is the exact stored instant. -/
theorem pdf_cmd_range_witness :
    cliDateUsable none = false ∧
    StateFile.getLastUpdated pdfInstantState "pdf"
        = some (.str "2024-12-01T23:30:00Z") ∧
    ("2024-12-01T23:30:00Z" : String) ≠ "" ∧
    pdfResolveDateRanges none pdfInstantState
      = .afterInstant (.str "2024-12-01T23:30:00Z") :=
  ⟨rfl, rfl, by decide,
   pdf_cmd_range_uses_exact_instant none pdfInstantState
     "2024-12-01T23:30:00Z" rfl rfl (by decide)⟩

/-- C9: `updateLastUpdated` mutates the in-memory state before calling
`save`: when the save fails on a non-empty activity list, the error
propagates (`saveFailed`) but the in-memory `lastUpdated` has already
advanced to the new maximum timestamp — the mutation is not rolled back. -/
theorem updateLastUpdated_mutation_precedes_save_failure (st : UserState)
    (ty : String) (acts : List Activity) (hne : acts ≠ [])
    (hok : StateFile.channelAssignable st ty = true) :
    ∃ m ∈ acts,
      (∀ a ∈ acts, a.startDatetimeLocal ≤ m.startDatetimeLocal) ∧
      (StateFile.updateLastUpdated true st ty acts).2 = .saveFailed ∧
      StateFile.getLastUpdated
          (StateFile.updateLastUpdated true st ty acts).1 ty
        = some (.str m.startDatetimeLocal) := by
  obtain ⟨m, l₁, l₂, hfm, hdec, hl₁, hl₂⟩ := findMostRecent_spec acts hne
  obtain ⟨hget, hout⟩ := updateLastUpdated_run true st ty acts m hfm hok
  refine ⟨m, ?_, max_of_decomp acts l₁ l₂ m hdec hl₁ hl₂,
    by simpa using hout, hget⟩
  rw [hdec]
  exact List.mem_append_right l₁ (List.mem_cons_self m l₂)

/-- Witness for C9 on channel "kml" of a state with both channels set. -/
theorem updateLastUpdated_mutation_witness :
    specActivities ≠ [] ∧
    StateFile.channelAssignable twoChannelState "kml" = true ∧
    (∃ m ∈ specActivities,
      (∀ a ∈ specActivities,
        a.startDatetimeLocal ≤ m.startDatetimeLocal) ∧
      (StateFile.updateLastUpdated true twoChannelState "kml"
          specActivities).2 = .saveFailed ∧
      StateFile.getLastUpdated
          (StateFile.updateLastUpdated true twoChannelState "kml"
            specActivities).1 "kml"
        = some (.str m.startDatetimeLocal)) :=
  ⟨by decide, by decide,
   updateLastUpdated_mutation_precedes_save_failure twoChannelState "kml"
     specActivities (by decide) (by decide)⟩

/-- C10: unknown top-level keys in a valid loaded record are preserved
through a load/save round trip: `load` adopts the entire parsed record and
`save` serializes the entire state, so the written file equals the original
record, key for key. -/
theorem load_save_preserves_unknown_keys (fields : List (String × Json)) :
    StateFile.save false (StateFile.load (.parsed (.obj fields)))
      = .ok (.obj fields) ∧
    ∀ k : String,
      lookupKey (StateFile.load (.parsed (.obj fields))) k
        = lookupKey fields k :=
  ⟨rfl, fun _ => rfl⟩
